import Mathlib

/-!
Verification of the GreatFET host-side SPI bus and flash programming layers.

The SPI bus layer (`spi_bus.py`) is embedded as pure functions over an
abstract board transport: the board's `vendor_request_out` / `vendor_request_in`
primitives become fields of a `Board` structure returning `Except` values, and
`SPIBus.transmit` returns, besides its result, the trace of transport calls it
issued and the final value of the (mutated) `data` list.

The flash programming layer (`greatfet_firmware.py`) calls into the board's
`onboard_flash` driver, whose source is not part of this repository slice;
the driver's behaviour is modelled from the specification where noted.
-/

/-- A call issued by the SPI bus to the board transport: a vendor request out
carrying a payload (SPI_WRITE) or a vendor request in of a given length
(SPI_READ). -/
inductive SpiCall where
  | write (payload : List Nat)
  | read (length : Nat)
deriving DecidableEq, Repr

/-- The error outcomes of `SPIBus.transmit`: the `ValueError` raised when the
reconciled length exceeds the buffer size (called `CapacityExceeded` by the
specification), or an error propagated from the transport. -/
inductive SpiError (ε : Type) where
  | capacityExceeded
  | transport (e : ε)
deriving DecidableEq, Repr

/-- The board transport consumed by the SPI bus: `vendor_request_out` models
`board.vendor_request_out(SPI_WRITE, data=...)` and `vendor_request_in` models
`board.vendor_request_in(SPI_READ, length=...)`. Each may fail with a
transport error. -/
structure Board (ε : Type) where
  vendor_request_out : List Nat → Except ε Unit
  vendor_request_in : Nat → Except ε (List Nat)

/-- The state of a `SPIBus` object: the parent board reference, the
`buffer_size` limitation, and the list of attached devices. -/
structure SPIBus (ε δ : Type) where
  board : Board ε
  buffer_size : Nat
  devices : List δ

/-- Embedding of `SPIBus.attach_device`: appends the device to `self.devices`.
No other attribute is touched and no error is possible. -/
def SPIBus.attach_device (bus : SPIBus ε δ) (device : δ) : SPIBus ε δ :=
  { bus with devices := bus.devices ++ [device] }

/-- The length-reconciliation step of `SPIBus.transmit`: when
`receive_length > len(data)`, the data list is extended with
`receive_length - len(data)` zero bytes; otherwise it is left unchanged. -/
def reconcile (data : List Nat) (receiveLength : Nat) : List Nat :=
  if receiveLength > data.length then
    data ++ List.replicate (receiveLength - data.length) 0
  else
    data

/-- The observable outcome of one `SPIBus.transmit` call: the returned value
or raised error, the ordered trace of transport calls issued, and the final
value of the caller's `data` list (which the Python code mutates in place
when padding is required). -/
structure TransmitResult (ε : Type) where
  result : Except (SpiError ε) (List Nat)
  calls : List SpiCall
  finalData : List Nat

/-- Embedding of `SPIBus.transmit(data, receive_length=None)`:
defaults `receive_length` to `len(data)`; extends `data` in place with zeroes
when `receive_length > len(data)`; raises when the (extended) data length
exceeds `buffer_size`; otherwise issues one transport write of the extended
data, then, when `receive_length > 0`, one transport read of
`receive_length` bytes whose result is returned (an empty list is returned
when no receive was requested). Transport errors propagate unchanged. -/
def SPIBus.transmit (bus : SPIBus ε δ) (data : List Nat)
    (receiveLengthArg : Option Nat) : TransmitResult ε :=
  if (reconcile data (receiveLengthArg.getD data.length)).length > bus.buffer_size then
    ⟨.error .capacityExceeded, [], reconcile data (receiveLengthArg.getD data.length)⟩
  else
    match bus.board.vendor_request_out (reconcile data (receiveLengthArg.getD data.length)) with
    | .error e =>
        ⟨.error (.transport e),
         [.write (reconcile data (receiveLengthArg.getD data.length))],
         reconcile data (receiveLengthArg.getD data.length)⟩
    | .ok _ =>
        if receiveLengthArg.getD data.length > 0 then
          match bus.board.vendor_request_in (receiveLengthArg.getD data.length) with
          | .error e =>
              ⟨.error (.transport e),
               [.write (reconcile data (receiveLengthArg.getD data.length)),
                .read (receiveLengthArg.getD data.length)],
               reconcile data (receiveLengthArg.getD data.length)⟩
          | .ok r =>
              ⟨.ok r,
               [.write (reconcile data (receiveLengthArg.getD data.length)),
                .read (receiveLengthArg.getD data.length)],
               reconcile data (receiveLengthArg.getD data.length)⟩
        else
          ⟨.ok [],
           [.write (reconcile data (receiveLengthArg.getD data.length))],
           reconcile data (receiveLengthArg.getD data.length)⟩

/-- A transport whose writes always succeed and whose reads return the
requested number of bytes (each byte 7). Used to instantiate theorems at
concrete inputs. -/
def idealBoard : Board Unit :=
  ⟨fun _ => .ok (), fun n => .ok (List.replicate n 7)⟩

/-- A transport whose writes succeed but whose reads always fail. -/
def failReadBoard : Board Unit :=
  ⟨fun _ => .ok (), fun _ => .error ()⟩

/-- An SPI bus over the ideal transport with the default buffer size 255. -/
def testBus : SPIBus Unit Nat :=
  ⟨idealBoard, 255, []⟩

theorem reconcile_length (data : List Nat) (rl : Nat) :
    (reconcile data rl).length = max data.length rl := by
  unfold reconcile
  split_ifs with h
  · simp
    omega
  · omega

theorem reconcile_of_lt (data : List Nat) (rl : Nat) (h : data.length < rl) :
    reconcile data rl = data ++ List.replicate (rl - data.length) 0 := by
  unfold reconcile
  exact if_pos h

theorem transmit_def (bus : SPIBus ε δ) (data : List Nat) (rl : Nat) :
    bus.transmit data (some rl) =
      if (reconcile data rl).length > bus.buffer_size then
        ⟨.error .capacityExceeded, [], reconcile data rl⟩
      else
        match bus.board.vendor_request_out (reconcile data rl) with
        | .error e =>
            ⟨.error (.transport e), [.write (reconcile data rl)], reconcile data rl⟩
        | .ok _ =>
            if rl > 0 then
              match bus.board.vendor_request_in rl with
              | .error e =>
                  ⟨.error (.transport e),
                   [.write (reconcile data rl), .read rl], reconcile data rl⟩
              | .ok r =>
                  ⟨.ok r, [.write (reconcile data rl), .read rl], reconcile data rl⟩
            else
              ⟨.ok [], [.write (reconcile data rl)], reconcile data rl⟩ :=
  rfl

/-- Maximum flash length, from `greatfet_firmware.py`:
`MAX_FLASH_LENGTH = 0x100000`. -/
def MAX_FLASH_LENGTH : Nat := 0x100000

/-- A call issued by the flash programming layer to the flash transport:
a whole-region erase, a bounded write chunk, or a bounded read chunk. -/
inductive FlashCall where
  | erase
  | writeChunk (address : Nat) (payload : List Nat)
  | readChunk (address : Nat) (length : Nat)
deriving DecidableEq, Repr

/-- The error outcomes of a flash read or write: the `OutOfRange` rejection
of an address/length beyond the configured maximum, or an error propagated
from the flash transport. -/
inductive FlashError (ε : Type) where
  | outOfRange
  | transport (e : ε)
deriving DecidableEq, Repr

/-- The opaque flash transport: a whole-region erase operation and bounded
single-shot write/read chunk operations, each of which may fail. -/
structure FlashTransport (ε : Type) where
  eraseResult : Except ε Unit
  writeChunkResult : Nat → List Nat → Except ε Unit
  readChunkResult : Nat → Nat → Except ε (List Nat)

/-- Modelled from the spec: the write chunk loop of the onboard flash driver
(`device.onboard_flash.write`), whose source is not in this repository slice.
While data remains, a transport write of at most `maxChunk` bytes is issued
at the current offset, a progress event
`(bytes_completed, bytes_total)` is emitted after each chunk, and a transport
error aborts the remaining chunks and propagates. Returns the outcome, the
trace of chunk calls, and the emitted progress events. -/
def writeChunks (t : FlashTransport ε) (maxChunk : Nat) (hc : 0 < maxChunk)
    (total done : Nat) (data : List Nat) (address : Nat) :
    Except ε Unit × List FlashCall × List (Nat × Nat) :=
  if hd : data = [] then
    (.ok (), [], [])
  else
    match t.writeChunkResult address (data.take maxChunk) with
    | .error e => (.error e, [.writeChunk address (data.take maxChunk)], [])
    | .ok _ =>
        let rest := writeChunks t maxChunk hc total (done + (data.take maxChunk).length)
          (data.drop maxChunk) (address + (data.take maxChunk).length)
        (rest.1,
         .writeChunk address (data.take maxChunk) :: rest.2.1,
         (done + (data.take maxChunk).length, total) :: rest.2.2)
termination_by data.length
decreasing_by
  have hlen : 0 < data.length := List.length_pos.mpr hd
  simp only [List.length_drop]
  omega

/-- Modelled from the spec: the read chunk loop of the onboard flash driver
(`device.onboard_flash.read`), whose source is not in this repository slice.
While bytes remain, a transport read of `min(remaining, maxChunk)` bytes is
issued at the current offset, the results are accumulated in order, a
progress event is emitted after each chunk, and a transport error aborts the
remaining chunks and propagates. -/
def readChunks (t : FlashTransport ε) (maxChunk : Nat) (hc : 0 < maxChunk)
    (total done remaining : Nat) (address : Nat) :
    Except ε (List Nat) × List FlashCall × List (Nat × Nat) :=
  if h0 : remaining = 0 then
    (.ok [], [], [])
  else
    match t.readChunkResult address (min remaining maxChunk) with
    | .error e => (.error e, [.readChunk address (min remaining maxChunk)], [])
    | .ok bytes =>
        let rest := readChunks t maxChunk hc total (done + min remaining maxChunk)
          (remaining - min remaining maxChunk) (address + min remaining maxChunk)
        (rest.1.map (fun tail => bytes ++ tail),
         .readChunk address (min remaining maxChunk) :: rest.2.1,
         (done + min remaining maxChunk, total) :: rest.2.2)
termination_by remaining
decreasing_by omega

/-- Modelled from the spec: `device.onboard_flash.write(data, address,
erase_first, progress_callback)`, whose source is not in this repository
slice. Rejects with `OutOfRange`, before any transport call, a request whose
`address + length` exceeds the configured maximum; a zero-length write is a
no-op emitting the single terminal progress event `(0, 0)`; otherwise, when
the erase-first policy is enabled, a whole-region erase is issued before any
write chunk (an erase failure propagates and no write chunk is issued), and
the data is then written in chunks. -/
def flashWrite (t : FlashTransport ε) (maxFlash maxChunk : Nat) (hc : 0 < maxChunk)
    (data : List Nat) (address : Nat) (eraseFirst : Bool) :
    Except (FlashError ε) Unit × List FlashCall × List (Nat × Nat) :=
  if maxFlash < address + data.length then
    (.error .outOfRange, [], [])
  else if data = [] then
    (.ok (), [], [(0, 0)])
  else if eraseFirst then
    match t.eraseResult with
    | .error e => (.error (.transport e), [.erase], [])
    | .ok _ =>
        let rest := writeChunks t maxChunk hc data.length 0 data address
        (rest.1.mapError .transport, .erase :: rest.2.1, rest.2.2)
  else
    let rest := writeChunks t maxChunk hc data.length 0 data address
    (rest.1.mapError .transport, rest.2.1, rest.2.2)

/-- Modelled from the spec: `device.onboard_flash.read(address, length,
progress_callback)`, whose source is not in this repository slice. Rejects
with `OutOfRange`, before any transport call, a request whose
`address + length` exceeds the configured maximum; a zero-length read is a
no-op emitting the single terminal progress event `(0, 0)`; otherwise the
region is read in chunks and the accumulated bytes are returned. -/
def flashRead (t : FlashTransport ε) (maxFlash maxChunk : Nat) (hc : 0 < maxChunk)
    (address length : Nat) :
    Except (FlashError ε) (List Nat) × List FlashCall × List (Nat × Nat) :=
  if maxFlash < address + length then
    (.error .outOfRange, [], [])
  else if length = 0 then
    (.ok [], [], [(0, 0)])
  else
    let rest := readChunks t maxChunk hc length 0 length address
    (rest.1.mapError .transport, rest.2.1, rest.2.2)

/-- Embedding of `spi_flash_write` from `greatfet_firmware.py`: writes the
file's bytes (here `fileData`; file I/O and logging are elided) to the
onboard flash at `address`, always requesting `erase_first=True`. The flash
driver's maximum length is the configured `MAX_FLASH_LENGTH`; its chunk size
is the transport-imposed constant `maxChunk`. -/
def spi_flash_write (t : FlashTransport ε) (maxChunk : Nat) (hc : 0 < maxChunk)
    (fileData : List Nat) (address : Nat) :
    Except (FlashError ε) Unit × List FlashCall × List (Nat × Nat) :=
  flashWrite t MAX_FLASH_LENGTH maxChunk hc fileData address true

/-- Embedding of `spi_flash_read` from `greatfet_firmware.py`: reads `length`
bytes of flash starting at `address` (the write of the result to a file is
elided). -/
def spi_flash_read (t : FlashTransport ε) (maxChunk : Nat) (hc : 0 < maxChunk)
    (address length : Nat) :
    Except (FlashError ε) (List Nat) × List FlashCall × List (Nat × Nat) :=
  flashRead t MAX_FLASH_LENGTH maxChunk hc address length

/-- A flash transport that always succeeds; reads return the requested number
of zero bytes. -/
def idealFlashTransport : FlashTransport Unit :=
  ⟨.ok (), fun _ _ => .ok (), fun _ n => .ok (List.replicate n 0)⟩

/-- A flash transport whose erase fails and whose chunk operations succeed. -/
def failEraseTransport : FlashTransport Unit :=
  ⟨.error (), fun _ _ => .ok (), fun _ n => .ok (List.replicate n 0)⟩

theorem transmit_of_reject (bus : SPIBus ε δ) (data : List Nat) (rl : Nat)
    (h : bus.buffer_size < max data.length rl) :
    bus.transmit data (some rl) = ⟨.error .capacityExceeded, [], reconcile data rl⟩ := by
  rw [transmit_def, if_pos]
  rw [reconcile_length]
  exact h

theorem transmit_of_accept (bus : SPIBus ε δ) (data : List Nat) (rl : Nat)
    (h : max data.length rl ≤ bus.buffer_size) :
    bus.transmit data (some rl) =
      match bus.board.vendor_request_out (reconcile data rl) with
      | .error e =>
          ⟨.error (.transport e), [.write (reconcile data rl)], reconcile data rl⟩
      | .ok _ =>
          if rl > 0 then
            match bus.board.vendor_request_in rl with
            | .error e =>
                ⟨.error (.transport e),
                 [.write (reconcile data rl), .read rl], reconcile data rl⟩
            | .ok r =>
                ⟨.ok r, [.write (reconcile data rl), .read rl], reconcile data rl⟩
          else
            ⟨.ok [], [.write (reconcile data rl)], reconcile data rl⟩ := by
  rw [transmit_def, if_neg]
  rw [reconcile_length]
  omega

theorem transmit_write_error (bus : SPIBus ε δ) (data : List Nat) (rl : Nat)
    (hcap : max data.length rl ≤ bus.buffer_size) {e : ε}
    (hw : bus.board.vendor_request_out (reconcile data rl) = .error e) :
    bus.transmit data (some rl) =
      ⟨.error (.transport e), [.write (reconcile data rl)], reconcile data rl⟩ := by
  rw [transmit_of_accept bus data rl hcap, hw]

theorem transmit_write_ok_zero (bus : SPIBus ε δ) (data : List Nat) (rl : Nat)
    (hcap : max data.length rl ≤ bus.buffer_size) {u : Unit}
    (hw : bus.board.vendor_request_out (reconcile data rl) = .ok u) (h0 : rl = 0) :
    bus.transmit data (some rl) =
      ⟨.ok [], [.write (reconcile data rl)], reconcile data rl⟩ := by
  rw [transmit_of_accept bus data rl hcap, hw, if_neg (by omega)]

theorem transmit_read_error (bus : SPIBus ε δ) (data : List Nat) (rl : Nat)
    (hcap : max data.length rl ≤ bus.buffer_size) {u : Unit}
    (hw : bus.board.vendor_request_out (reconcile data rl) = .ok u)
    (hrl : rl > 0) {e : ε} (hread : bus.board.vendor_request_in rl = .error e) :
    bus.transmit data (some rl) =
      ⟨.error (.transport e), [.write (reconcile data rl), .read rl],
       reconcile data rl⟩ := by
  rw [transmit_of_accept bus data rl hcap, hw, if_pos hrl, hread]

theorem transmit_read_ok (bus : SPIBus ε δ) (data : List Nat) (rl : Nat)
    (hcap : max data.length rl ≤ bus.buffer_size) {u : Unit}
    (hw : bus.board.vendor_request_out (reconcile data rl) = .ok u)
    (hrl : rl > 0) {r : List Nat} (hread : bus.board.vendor_request_in rl = .ok r) :
    bus.transmit data (some rl) =
      ⟨.ok r, [.write (reconcile data rl), .read rl], reconcile data rl⟩ := by
  rw [transmit_of_accept bus data rl hcap, hw, if_pos hrl, hread]

/-- C1: whenever the reconciled length (the maximum of the send length and the
requested receive length) exceeds `buffer_size`, `SPIBus.transmit` raises the
capacity-exceeded condition and issues zero transport calls: neither the
transport write nor the transport read appears in the call trace. -/
theorem transmit_capacity_exceeded_no_calls (bus : SPIBus ε δ) (data : List Nat)
    (rl : Nat) (h : bus.buffer_size < max data.length rl) :
    (bus.transmit data (some rl)).result = .error .capacityExceeded ∧
    (bus.transmit data (some rl)).calls = [] := by
  rw [transmit_of_reject bus data rl h]
  exact ⟨rfl, rfl⟩

theorem transmit_capacity_exceeded_no_calls_witness :
    ((SPIBus.mk idealBoard 2 ([] : List Nat)).transmit [1, 2, 3] (some 0)).result
        = .error .capacityExceeded ∧
    ((SPIBus.mk idealBoard 2 ([] : List Nat)).transmit [1, 2, 3] (some 0)).calls = [] :=
  transmit_capacity_exceeded_no_calls (SPIBus.mk idealBoard 2 []) [1, 2, 3] 0 (by decide)

/-- C10: the capacity check of `SPIBus.transmit` is strict: the call raises
the capacity-exceeded condition exactly when the reconciled length strictly
exceeds `buffer_size`, and it issues at least one transport call (so proceeds
past the check) exactly when the reconciled length is at most `buffer_size`;
in particular a reconciled length equal to `buffer_size` is accepted. -/
theorem transmit_capacity_check_strict (bus : SPIBus ε δ) (data : List Nat)
    (rl : Nat) :
    ((bus.transmit data (some rl)).result = .error .capacityExceeded ↔
      bus.buffer_size < max data.length rl) ∧
    ((bus.transmit data (some rl)).calls = [] ↔
      bus.buffer_size < max data.length rl) := by
  by_cases h : bus.buffer_size < max data.length rl
  · rw [transmit_of_reject bus data rl h]
    exact ⟨⟨fun _ => h, fun _ => rfl⟩, ⟨fun _ => h, fun _ => rfl⟩⟩
  · rw [transmit_of_accept bus data rl (by omega)]
    cases hw : bus.board.vendor_request_out (reconcile data rl) with
    | error e => simp [h]
    | ok u =>
        by_cases hr : rl > 0
        · rw [if_pos hr]
          cases hread : bus.board.vendor_request_in rl with
          | error e => simp [h]
          | ok r => simp [h]
        · rw [if_neg hr]
          simp [h]

/-- C8: `SPIBus.attach_device` appends the device handle to the end of the
device registry, preserving insertion order, and leaves every other bus
attribute (the board reference and `buffer_size`) unchanged; it has no error
conditions. -/
theorem attach_device_appends (bus : SPIBus ε δ) (d : δ) :
    (bus.attach_device d).devices = bus.devices ++ [d] ∧
    (bus.attach_device d).board = bus.board ∧
    (bus.attach_device d).buffer_size = bus.buffer_size :=
  ⟨rfl, rfl, rfl⟩

/-- C9: when the requested receive length strictly exceeds the length of the
`data` argument, `SPIBus.transmit` mutates the caller's list in place,
extending it with zero bytes up to the receive length; the mutation happens
before the capacity check, so the final value of the argument differs from
the original even when the call raises (the statement holds for every
`buffer_size`, including ones that make the call raise). -/
theorem transmit_mutates_caller_data (bus : SPIBus ε δ) (data : List Nat)
    (rl : Nat) (h : data.length < rl) :
    (bus.transmit data (some rl)).finalData
        = data ++ List.replicate (rl - data.length) 0 ∧
    (bus.transmit data (some rl)).finalData ≠ data := by
  have hfinal : (bus.transmit data (some rl)).finalData = reconcile data rl := by
    by_cases hcap : bus.buffer_size < max data.length rl
    · rw [transmit_of_reject bus data rl hcap]
    · rw [transmit_of_accept bus data rl (by omega)]
      cases hw : bus.board.vendor_request_out (reconcile data rl) with
      | error e => rfl
      | ok u =>
          by_cases hr : rl > 0
          · rw [if_pos hr]
            cases hread : bus.board.vendor_request_in rl with
            | error e => rfl
            | ok r => rfl
          · rw [if_neg hr]
  rw [hfinal, reconcile_of_lt data rl h]
  refine ⟨rfl, fun heq => ?_⟩
  have := congrArg List.length heq
  simp at this
  omega

theorem transmit_mutates_caller_data_witness :
    ((SPIBus.mk idealBoard 1 ([] : List Nat)).transmit [5] (some 3)).result
        = .error .capacityExceeded ∧
    ((SPIBus.mk idealBoard 1 ([] : List Nat)).transmit [5] (some 3)).finalData
        = [5] ++ List.replicate 2 0 ∧
    ((SPIBus.mk idealBoard 1 ([] : List Nat)).transmit [5] (some 3)).finalData
        ≠ [5] :=
  ⟨rfl,
   (transmit_mutates_caller_data (SPIBus.mk idealBoard 1 []) [5] 3 (by decide)).1,
   (transmit_mutates_caller_data (SPIBus.mk idealBoard 1 []) [5] 3 (by decide)).2⟩

/-- C3: when the requested receive length strictly exceeds the send length,
the reconciled payload — and hence the payload of any transport write issued
by `SPIBus.transmit` — equals the original send bytes followed by
`receive_length - len(send_bytes)` zero bytes. -/
theorem transmit_zero_padding (bus : SPIBus ε δ) (data : List Nat) (rl : Nat)
    (h : data.length < rl) :
    reconcile data rl = data ++ List.replicate (rl - data.length) 0 ∧
    ∀ p, SpiCall.write p ∈ (bus.transmit data (some rl)).calls →
      p = data ++ List.replicate (rl - data.length) 0 := by
  refine ⟨reconcile_of_lt data rl h, fun p hp => ?_⟩
  have hpad : reconcile data rl = data ++ List.replicate (rl - data.length) 0 :=
    reconcile_of_lt data rl h
  by_cases hcap : bus.buffer_size < max data.length rl
  · rw [transmit_of_reject bus data rl hcap] at hp
    simp at hp
  · rw [transmit_of_accept bus data rl (by omega)] at hp
    cases hw : bus.board.vendor_request_out (reconcile data rl) with
    | error e =>
        rw [hw] at hp
        simp at hp
        rw [hp, hpad]
    | ok u =>
        rw [hw] at hp
        by_cases hr : rl > 0
        · rw [if_pos hr] at hp
          cases hread : bus.board.vendor_request_in rl with
          | error e =>
              rw [hread] at hp
              simp at hp
              rw [hp, hpad]
          | ok r =>
              rw [hread] at hp
              simp at hp
              rw [hp, hpad]
        · rw [if_neg hr] at hp
          simp at hp
          rw [hp, hpad]

theorem transmit_zero_padding_witness :
    reconcile [1] 3 = [1] ++ List.replicate 2 0 :=
  (transmit_zero_padding testBus [1] 3 (by decide)).1

/-- C4: a successful `SPIBus.transmit` call issues exactly one transport
write carrying the full reconciled payload, followed (when the receive
length is positive) by exactly one transport read of that length, and
nothing else; a transport error, on the write or on the read, propagates
unchanged as the call's result with no retry (the trace shows the failing
call was issued exactly once and nothing followed it). -/
theorem transmit_single_write_then_read (bus : SPIBus ε δ) (data : List Nat)
    (rl : Nat) :
    (∀ res, (bus.transmit data (some rl)).result = .ok res →
      (bus.transmit data (some rl)).calls =
        SpiCall.write (reconcile data rl) ::
          (if 0 < rl then [SpiCall.read rl] else [])) ∧
    (∀ e, max data.length rl ≤ bus.buffer_size →
      bus.board.vendor_request_out (reconcile data rl) = .error e →
      (bus.transmit data (some rl)).result = .error (.transport e) ∧
      (bus.transmit data (some rl)).calls = [SpiCall.write (reconcile data rl)]) ∧
    (∀ e, max data.length rl ≤ bus.buffer_size →
      bus.board.vendor_request_out (reconcile data rl) = .ok () →
      0 < rl → bus.board.vendor_request_in rl = .error e →
      (bus.transmit data (some rl)).result = .error (.transport e) ∧
      (bus.transmit data (some rl)).calls =
        [SpiCall.write (reconcile data rl), SpiCall.read rl]) := by
  refine ⟨fun res hres => ?_, fun e hcap hw => ?_, fun e hcap hw hr hread => ?_⟩
  · by_cases hcap : bus.buffer_size < max data.length rl
    · rw [transmit_of_reject bus data rl hcap] at hres
      simp at hres
    · have hcap2 : max data.length rl ≤ bus.buffer_size := by omega
      cases hw : bus.board.vendor_request_out (reconcile data rl) with
      | error e =>
          rw [transmit_write_error bus data rl hcap2 hw] at hres
          simp at hres
      | ok u =>
          by_cases hr : rl > 0
          · cases hread : bus.board.vendor_request_in rl with
            | error e2 =>
                rw [transmit_read_error bus data rl hcap2 hw hr hread] at hres
                simp at hres
            | ok r =>
                rw [transmit_read_ok bus data rl hcap2 hw hr hread, if_pos hr]
          · rw [transmit_write_ok_zero bus data rl hcap2 hw (by omega), if_neg hr]
  · rw [transmit_write_error bus data rl hcap hw]
    exact ⟨rfl, rfl⟩
  · rw [transmit_read_error bus data rl hcap hw hr hread]
    exact ⟨rfl, rfl⟩

theorem transmit_single_write_then_read_witness :
    ((SPIBus.mk failReadBoard 255 ([] : List Nat)).transmit [1] (some 2)).result
        = .error (.transport ()) ∧
    ((SPIBus.mk failReadBoard 255 ([] : List Nat)).transmit [1] (some 2)).calls
        = [SpiCall.write (reconcile [1] 2), SpiCall.read 2] :=
  (transmit_single_write_then_read (SPIBus.mk failReadBoard 255 []) [1] 2).2.2
    () (by decide) rfl (by decide) rfl

/-- C2 counterexample: the claim quantifies over every send buffer, but a
send buffer longer than `buffer_size` is rejected even when the requested
receive length is within `buffer_size`: with `buffer_size = 2`,
`send = [1, 2, 3]` and `receive_length = 1 ≤ 2`, the call raises the
capacity-exceeded condition instead of returning one byte. -/
theorem transmit_oversized_send_counterexample :
    (1 : Nat) ≤ 2 ∧
    ((SPIBus.mk idealBoard 2 ([] : List Nat)).transmit [1, 2, 3] (some 1)).result
        = .error .capacityExceeded :=
  ⟨by decide, rfl⟩

/-- C2 amended: for every send buffer and receive length whose reconciled
length (the maximum of the two) is at most `buffer_size`, when the transport
write succeeds and the transport read honours its length contract,
`SPIBus.transmit` returns exactly `receive_length` bytes when
`receive_length > 0`, and returns the empty sequence — issuing no transport
read at all — when `receive_length = 0`. -/
theorem transmit_returns_receive_length (bus : SPIBus ε δ) (data : List Nat)
    (rl : Nat) (hcap : max data.length rl ≤ bus.buffer_size)
    (hw : bus.board.vendor_request_out (reconcile data rl) = .ok ())
    (hread : ∀ n, 0 < n → ∃ r, bus.board.vendor_request_in n = .ok r ∧ r.length = n) :
    (0 < rl → ((bus.transmit data (some rl)).result).map List.length = .ok rl) ∧
    (rl = 0 → (bus.transmit data (some rl)).result = .ok [] ∧
      (bus.transmit data (some rl)).calls = [SpiCall.write (reconcile data rl)]) := by
  rw [transmit_of_accept bus data rl hcap, hw]
  constructor
  · intro hr
    obtain ⟨r, hrr, hrl⟩ := hread rl hr
    rw [if_pos hr, hrr]
    simp [Except.map, hrl]
  · intro h0
    subst h0
    rw [if_neg (by omega)]
    exact ⟨rfl, rfl⟩

theorem transmit_returns_receive_length_witness :
    ((testBus.transmit [1] (some 2)).result).map List.length = .ok 2 :=
  (transmit_returns_receive_length testBus [1] 2 (by decide) rfl
    (fun n _ => ⟨List.replicate n 7, rfl, by simp⟩)).1 (by decide)

/-- C5 counterexample: when the requested receive length is smaller than the
send length, the physical transaction is not length-balanced: with the
default buffer size, `send = [1, 2, 3]` and `receive_length = 1`, the
accepted request issues a transport write of 3 bytes but requests only 1
byte from the transport read. -/
theorem transmit_reconciled_lengths_counterexample :
    (testBus.transmit [1, 2, 3] (some 1)).calls
        = [SpiCall.write [1, 2, 3], SpiCall.read 1] ∧
    ([1, 2, 3] : List Nat).length = 3 ∧ (3 : Nat) ≠ 1 :=
  ⟨rfl, rfl, by decide⟩

/-- C5 amended: for every accepted request whose receive length is at least
the send length, the reconciled physical transaction is length-balanced:
the payload of the transport write and the length requested from the
transport read coincide (reconciliation only pads, never truncates, so the
balance fails when `receive_length < len(send_bytes)`). -/
theorem transmit_write_read_lengths_match (bus : SPIBus ε δ) (data : List Nat)
    (rl : Nat) (h : data.length ≤ rl) :
    ∀ p n, SpiCall.write p ∈ (bus.transmit data (some rl)).calls →
      SpiCall.read n ∈ (bus.transmit data (some rl)).calls →
      p.length = n := by
  intro p n hp hn
  by_cases hcap : bus.buffer_size < max data.length rl
  · rw [transmit_of_reject bus data rl hcap] at hp
    simp at hp
  · rw [transmit_of_accept bus data rl (by omega)] at hp hn
    cases hw : bus.board.vendor_request_out (reconcile data rl) with
    | error e =>
        rw [hw] at hn
        simp at hn
    | ok u =>
        rw [hw] at hp hn
        by_cases hr : rl > 0
        · rw [if_pos hr] at hp hn
          cases hread : bus.board.vendor_request_in rl with
          | error e =>
              rw [hread] at hp hn
              simp at hp hn
              subst hp
              subst hn
              rw [reconcile_length]
              omega
          | ok r =>
              rw [hread] at hp hn
              simp at hp hn
              subst hp
              subst hn
              rw [reconcile_length]
              omega
        · rw [if_neg hr] at hn
          simp at hn

theorem transmit_write_read_lengths_match_witness :
    (testBus.transmit [1] (some 2)).calls
        = [SpiCall.write [1, 0], SpiCall.read 2] ∧
    ([1, 0] : List Nat).length = 2 :=
  ⟨rfl, transmit_write_read_lengths_match testBus [1] 2 (by decide) [1, 0] 2
      (by decide) (by decide)⟩

/-- C6: a flash write or read request whose `address + length` exceeds the
configured maximum flash length (default `MAX_FLASH_LENGTH = 0x100000 =
1048576`) is rejected with `OutOfRange` and issues zero transport calls. -/
theorem flash_out_of_range_no_calls (t : FlashTransport ε) (maxChunk : Nat)
    (hc : 0 < maxChunk) (fileData : List Nat) (writeAddress readAddress readLength : Nat)
    (hwrite : MAX_FLASH_LENGTH < writeAddress + fileData.length)
    (hread : MAX_FLASH_LENGTH < readAddress + readLength) :
    spi_flash_write t maxChunk hc fileData writeAddress
        = (.error .outOfRange, [], []) ∧
    spi_flash_read t maxChunk hc readAddress readLength
        = (.error .outOfRange, [], []) ∧
    MAX_FLASH_LENGTH = 1048576 := by
  refine ⟨?_, ?_, rfl⟩
  · unfold spi_flash_write flashWrite
    rw [if_pos hwrite]
  · unfold spi_flash_read flashRead
    rw [if_pos hread]

theorem flash_out_of_range_no_calls_witness :
    spi_flash_write idealFlashTransport 64 (by decide) [0] 1048576
        = (.error .outOfRange, [], []) ∧
    spi_flash_read idealFlashTransport 64 (by decide) 1048576 1
        = (.error .outOfRange, [], []) :=
  ⟨(flash_out_of_range_no_calls idealFlashTransport 64 (by decide) [0]
      1048576 1048576 1 (by decide) (by decide)).1,
   (flash_out_of_range_no_calls idealFlashTransport 64 (by decide) [0]
      1048576 1048576 1 (by decide) (by decide)).2.1⟩

/-- C7: every flash write issued through `spi_flash_write` requests the
erase-first policy (`erase_first` is always `True`): for an in-range,
non-empty write, the whole-region erase is the first transport call — it
precedes every write chunk — and when the erase fails, the error propagates
and no write chunk is ever issued. -/
theorem spi_flash_write_erase_first (t : FlashTransport ε) (maxChunk : Nat)
    (hc : 0 < maxChunk) (fileData : List Nat) (address : Nat)
    (hin : address + fileData.length ≤ MAX_FLASH_LENGTH) (hne : fileData ≠ []) :
    spi_flash_write t maxChunk hc fileData address
        = flashWrite t MAX_FLASH_LENGTH maxChunk hc fileData address true ∧
    (∃ rest, (spi_flash_write t maxChunk hc fileData address).2.1
        = FlashCall.erase :: rest) ∧
    (∀ e, t.eraseResult = .error e →
      spi_flash_write t maxChunk hc fileData address
        = (.error (.transport e), [FlashCall.erase], [])) := by
  refine ⟨rfl, ?_, ?_⟩
  · unfold spi_flash_write flashWrite
    rw [if_neg (by omega), if_neg hne, if_pos rfl]
    cases he : t.eraseResult with
    | error e => exact ⟨[], rfl⟩
    | ok u =>
        exact ⟨(writeChunks t maxChunk hc fileData.length 0 fileData address).2.1, rfl⟩
  · intro e he
    unfold spi_flash_write flashWrite
    rw [if_neg (by omega), if_neg hne, if_pos rfl, he]

theorem spi_flash_write_erase_first_witness :
    spi_flash_write failEraseTransport 64 (by decide) [1, 2, 3] 0
        = (.error (.transport ()), [FlashCall.erase], []) :=
  (spi_flash_write_erase_first failEraseTransport 64 (by decide) [1, 2, 3] 0
      (by decide) (by decide)).2.2 () rfl
